import Mathlib

/-!
Shallow embedding of the go-mwclient core (`core.go`): the request
parameter container, the maxlag-aware dispatch-and-retry loop (`call`),
the JSON decoding layer (`callJSON`), and the authentication state
machine (`Login`/`Logout`).

Modelling conventions:
* `params.Values` (a Go string-to-string map with `Set`/`Get`) is an
  association list with unique keys; `Get` returns `""` when the key is
  absent, exactly as a Go map does.
* HTTP response streams (`io.ReadCloser`) are modelled as the `String`
  they would yield when fully read.
* One transport exchange (`http.Client.Do` plus the response) is an
  `HttpResult`: either a transport-level failure or a header list plus a
  body.  `call` receives a function `Nat → HttpResult` giving the
  outcome of each successive dispatch attempt.
* JSON parsing (the external `jason` dependency) is an external
  capability: `callJSON` is parametrised by `parse : String → Option JValue`
  (`none` models a parse error).
* Errors of the several Go error types are the constructors of `Err`.
-/

namespace Mwclient

/-- The three values of the Go `assertType` enum (`AssertNone`,
`AssertUser`, `AssertBot`, declared with `iota` as 0, 1, 2). -/
inductive AssertType where
  | AssertNone
  | AssertUser
  | AssertBot
deriving DecidableEq, Repr

/-- The numeric value of the `assertType` constant (Go declares them by
`iota`, so `AssertNone = 0`, `AssertUser = 1`, `AssertBot = 2`); used to
model the comparison `w.Assert > AssertNone`. -/
def AssertType.toNat : AssertType → Nat
  | .AssertNone => 0
  | .AssertUser => 1
  | .AssertBot => 2

/-- The `Maxlag` configuration struct: `On`, `Timeout`, `Retries`.
(`sleep` is modelled by recording requested sleep durations in the
result of `call` instead of performing them.) -/
structure Maxlag where
  On : Bool
  Timeout : String
  Retries : Int
deriving DecidableEq, Repr

/-- The fields of the Go `Client` struct that the core logic reads:
the maxlag configuration and the assertion mode.  (The HTTP client,
URL, user agent, token cache and debug sink do not influence the
control flow modelled here.) -/
structure Client where
  maxlag : Maxlag
  assert : AssertType
deriving DecidableEq, Repr

/-- `params.Values`: a string-keyed map modelled as an association list
with unique keys. -/
abbrev Params := List (String × String)

/-- `Values.Get`: returns the value mapped to the key, or `""` if the
key is absent (Go map indexing yields the zero value). -/
def Params.get : Params → String → String
  | [], _ => ""
  | (k', v') :: rest, k => if k' = k then v' else Params.get rest k

/-- `Values.Set`: replaces the value of an existing key or inserts the
pair. -/
def Params.set : Params → String → String → Params
  | [], k, v => [(k, v)]
  | (k', v') :: rest, k, v =>
      if k' = k then (k, v) :: rest else (k', v') :: Params.set rest k v

/-- Whether the key is in the map (distinguishes a key set to `""` from
an absent key, as a Go map does for iteration/encoding purposes). -/
def Params.hasKey : Params → String → Bool
  | [], _ => false
  | (k', _) :: rest, k => if k' = k then true else Params.hasKey rest k

/-- The outcome of one transport exchange: `fail` models an error from
`httpc.Do` (network/timeout class); `ok` models a response with its
header list and its full body. -/
inductive HttpResult where
  | fail (msg : String)
  | ok (headers : List (String × String)) (body : String)
deriving DecidableEq, Repr

/-- `http.Header.Get`: the first value stored under a header name, or
`""` when the header is absent.  `net/http` keys the header map by the
canonical MIME form of each name and `Get` canonicalises its argument,
so with headers stored in canonical form (as here) the lookup is an
exact match. -/
def headerGet (hs : List (String × String)) (k : String) : String :=
  match hs.find? (fun h => h.1 = k) with
  | some h => h.2
  | none => ""

/-- Whether a header name occurs in the header list at all, regardless
of its value (possibly empty). -/
def headerPresent (hs : List (String × String)) (k : String) : Bool :=
  (hs.find? (fun h => h.1 = k)).isSome

/-- A navigable JSON document (what `jason` produces). -/
inductive JValue where
  | null
  | bool (b : Bool)
  | num (n : Int)
  | str (s : String)
  | arr (xs : List JValue)
  | obj (fields : List (String × JValue))

/-- The error values the core can produce, one constructor per Go error
type: `transport` (a wrapped `httpc.Do` error), `atoiFail` (the
`strconv.Atoi` error on a non-integer `Retry-After`), `maxlag` (the
`maxLagError` struct with the drained body and the wait seconds), `busy`
(`ErrAPIBusy`), `parse` (a `jason` decode error), `api` (`APIError`
with `Code` and `Info`), `malformedEnvelope` (the classifier's error
when `code`/`info` are not strings), `warnings` (the `APIError` built
from a non-empty `warnings` object), `invalidLoginResult` (the
`fmt.Errorf` in `Login` when `login.result` is not a string). -/
inductive Err where
  | transport (msg : String)
  | atoiFail (s : String)
  | maxlag (rawBody : String) (wait : Int)
  | busy
  | parse (body : String)
  | api (code info : String)
  | malformedEnvelope
  | warnings (content : JValue)
  | invalidLoginResult

/-- `strconv.Atoi`: an optional `+`/`-` sign followed by at least one
base-10 digit; anything else is a syntax error (`none`).  A
syntactically valid number outside the 64-bit signed integer range
(`int` on the 64-bit platforms Go targets here) is an `ErrRange`
error, also `none`. -/
def atoi (s : String) : Option Int :=
  let withSign : Int × List Char :=
    match s.toList with
    | '-' :: rest => (-1, rest)
    | '+' :: rest => (1, rest)
    | cs => (1, cs)
  if withSign.2.isEmpty then none
  else if withSign.2.all Char.isDigit then
    let n : Int := withSign.1 *
      (withSign.2.foldl (fun acc ch => acc * 10 + (ch.toNat - 48)) 0 : Nat)
    if n < -9223372036854775808 ∨ 9223372036854775807 < n then none
    else some n
  else none

/-- The first augmentation step at the top of the `callf` closure
(core.go lines 134-135): set `format=json` and the `utf8` marker. -/
def augmentBase (p : Params) : Params :=
  (p.set "format" "json").set "utf8" ""

/-- The maxlag augmentation step (core.go lines 137-142): when maxlag
is on and `p.Get("maxlag")` is empty, fill in the configured timeout. -/
def augmentMaxlag (c : Client) (p : Params) : Params :=
  if c.maxlag.On then
    if p.get "maxlag" = "" then p.set "maxlag" c.maxlag.Timeout else p
  else p

/-- The assert augmentation step (core.go lines 144-151): when the
assertion mode is greater than `AssertNone`, set `assert` to `user` or
`bot` accordingly. -/
def augmentAssert (c : Client) (p : Params) : Params :=
  if c.assert.toNat > 0 then
    match c.assert with
    | .AssertUser => p.set "assert" "user"
    | .AssertBot => p.set "assert" "bot"
    | .AssertNone => p
  else p

/-- The whole parameter-augmentation sequence of the `callf` closure
(core.go lines 134-151), applied in source order: format/utf8, then
the conditional `maxlag` fill-in, then the `assert` parameter. -/
def augment (c : Client) (p : Params) : Params :=
  augmentAssert c (augmentMaxlag c (augmentBase p))

/-- One execution of the `callf` closure (core.go lines 133-224) given
the transport outcome `r` for this attempt.  Returns the augmented
parameters the request was built from, together with the classified
outcome: a transport error; if the `X-Database-Lag` header value is
non-empty, either an `Atoi` failure on `Retry-After` or the
`maxLagError` carrying the drained body and the wait; otherwise the
body. -/
def callf (c : Client) (p : Params) (r : HttpResult) : Params × Except Err String :=
  let p' := augment c p
  match r with
  | .fail msg => (p', .error (.transport msg))
  | .ok headers body =>
      if headerGet headers "X-Database-Lag" ≠ "" then
        match atoi (headerGet headers "Retry-After") with
        | none => (p', .error (.atoiFail (headerGet headers "Retry-After")))
        | some n => (p', .error (.maxlag body n))
      else (p', .ok body)

/-- The type assertion `err.(maxLagError)` in the retry loop: whether a
`callf` outcome is the maxlag backpressure signal. -/
def isMaxlagRes : Except Err String → Bool
  | .error (.maxlag _ _) => true
  | _ => false

/-- What a run of `Client.call` did: how many times `callf` was invoked
(i.e. how many HTTP dispatch attempts were made), the sequence of
sleep durations (in seconds) passed to `Maxlag.sleep`, and the final
returned value. -/
structure CallTrace where
  attempts : Nat
  sleeps : List Int
  result : Except Err String

/-- The maxlag retry loop of `Client.call` (core.go lines 227-243):
`tries` is the current loop index, the second argument the number of
iterations left (`Retries - tries`).  On a `maxLagError` the loop
sleeps for the signalled wait only when further tries remain, then
continues; any other outcome is returned immediately; when the budget
runs out the result is `ErrAPIBusy`. -/
def callLoop (c : Client) (p : Params) (rs : Nat → HttpResult) (tries : Nat) :
    Nat → CallTrace
  | 0 => ⟨0, [], .error .busy⟩
  | remaining + 1 =>
      match (callf c p (rs tries)).2 with
      | .error (.maxlag _ wait) =>
          let t := callLoop c p rs (tries + 1) remaining
          ⟨t.attempts + 1, (if remaining > 0 then [wait] else []) ++ t.sleeps, t.result⟩
      | other => ⟨1, [], other⟩

/-- `Client.call` (core.go lines 131-248): with maxlag on, run the
retry loop for `Retries` iterations (none at all when `Retries ≤ 0`);
with maxlag off, run `callf` exactly once and return its outcome
unchanged.  `rs i` is the transport outcome of dispatch attempt `i`;
`post` selects POST over GET (it shapes the HTTP request only, not the
outcome classification). -/
def call (c : Client) (p : Params) (post : Bool) (rs : Nat → HttpResult) : CallTrace :=
  if c.maxlag.On then
    callLoop c p rs 0 c.maxlag.Retries.toNat
  else
    ⟨1, [], (callf c p (rs 0)).2⟩

/-- Field lookup in a JSON object (`nil` when the value is not an
object or lacks the key). -/
def objGet : JValue → String → Option JValue
  | .obj fields, k => List.lookup k fields
  | _, _ => none

/-- Navigate a path of object keys, as `jason`'s variadic getters do. -/
def getPath : JValue → List String → Option JValue
  | j, [] => some j
  | j, k :: ks =>
      match objGet j k with
      | some v => getPath v ks
      | none => none

/-- `jason.Object.GetString(path...)`: navigate the path and require the
final value to be a string. -/
def getString (j : JValue) (path : List String) : Option String :=
  match getPath j path with
  | some (.str s) => some s
  | _ => none

/-- Whether a JSON value is non-empty, for the warnings check: an
object is non-empty when it has at least one field. -/
def jNonEmpty : JValue → Bool
  | .obj fields => !fields.isEmpty
  | _ => true

/-- Modelled from the spec: `extractAPIErrors`, the Error Classifier
(defined in the repository's errors.go, which is not under src/).  Per
the spec: a top-level `error` key yields an `APIError` from its `code`
and `info` string sub-fields, or a "malformed error envelope" error
when those cannot be read as strings; otherwise a present, non-empty
top-level `warnings` key yields an application error built from its
content; otherwise no application-level failure (`none`). -/
def extractAPIErrors (js : JValue) : Option Err :=
  match objGet js "error" with
  | some e =>
      match objGet e "code", objGet e "info" with
      | some (.str code), some (.str info) => some (.api code info)
      | _, _ => some .malformedEnvelope
  | none =>
      match objGet js "warnings" with
      | some w => if jNonEmpty w then some (.warnings w) else none
      | none => none

/-- `Client.callJSON` (core.go lines 255-270): run `call`; on error
return `(nil, err)`; parse the body (`jason.NewObjectFromReader`),
returning `(nil, parseErr)` on failure; otherwise return the parsed
document TOGETHER with `extractAPIErrors` of it:
`return js, extractAPIErrors(js)`. -/
def callJSON (parse : String → Option JValue) (c : Client) (p : Params)
    (post : Bool) (rs : Nat → HttpResult) : Option JValue × Option Err :=
  match (call c p post rs).result with
  | .error e => (none, some e)
  | .ok body =>
      match parse body with
      | none => (none, some (.parse body))
      | some js => (some js, extractAPIErrors js)

/-- `Client.Login` (core.go lines 326-352).  `tokenRes` is the outcome
of the `GetToken(LoginToken)` dependency; `rs` gives the transport
outcomes for the `action=login` POST.  Returns the updated client and
the returned error (`none` for nil).  Mirrors the source: token
failure and Post failure are returned as-is; a `login.result` that is
not a string yields the "invalid API response" error; a result other
than `"Success"` yields `APIError{Code: lgResult}`; on success the
assertion mode becomes `AssertUser` only when it was `AssertNone`. -/
def Login (parse : String → Option JValue) (c : Client) (username password : String)
    (tokenRes : Except Err String) (rs : Nat → HttpResult) : Client × Option Err :=
  match tokenRes with
  | .error e => (c, some e)
  | .ok token =>
      let v : Params :=
        [("action", "login"), ("lgname", username),
         ("lgpassword", password), ("lgtoken", token)]
      match callJSON parse c v true rs with
      | (_, some e) => (c, some e)
      | (none, none) => (c, none)  -- unreachable: callJSON yields a document whenever it yields no error
      | (some resp, none) =>
          match getString resp ["login", "result"] with
          | none => (c, some .invalidLoginResult)
          | some lgResult =>
              if lgResult ≠ "Success" then (c, some (.api lgResult ""))
              else if c.assert = .AssertNone then
                ({ c with assert := .AssertUser }, none)
              else (c, none)

/-- `Client.Logout` (core.go lines 357-360): set `Assert` to
`AssertNone`, then issue a best-effort `action=logout` GET whose
outcome is discarded; the function returns nothing, so no error is
ever surfaced. -/
def Logout (parse : String → Option JValue) (c : Client) (rs : Nat → HttpResult) : Client :=
  let c' := { c with assert := .AssertNone }
  let _ := callJSON parse c' [("action", "logout")] false rs
  c'

/-- A client with maxlag enabled, the default timeout `"5"` and the
default retry budget 3 (the configuration `New` installs, with
`Maxlag.On` switched to true). -/
def mlClient : Client := ⟨⟨true, "5", 3⟩, .AssertNone⟩

/-- A client with maxlag disabled (the configuration `New` installs). -/
def plainClient : Client := ⟨⟨false, "5", 3⟩, .AssertNone⟩

/-- The headers of a response carrying the lag signal with
`Retry-After: 5`. -/
def lagHeaders : List (String × String) :=
  [("X-Database-Lag", "true"), ("Retry-After", "5")]

/-- The response body `{"error":{"code":"badtoken","info":"Invalid token"}}`. -/
def errBody : String :=
  "\x7b\"error\":\x7b\"code\":\"badtoken\",\"info\":\"Invalid token\"\x7d\x7d"

/-- The document `errBody` parses to. -/
def badtokenDoc : JValue :=
  .obj [("error", .obj [("code", .str "badtoken"), ("info", .str "Invalid token")])]

/-- The response body `{"warnings":{"main":{"*":"deprecated param"}}}`. -/
def warnBody : String :=
  "\x7b\"warnings\":\x7b\"main\":\x7b\"*\":\"deprecated param\"\x7d\x7d\x7d"

/-- The document `warnBody` parses to. -/
def warnDoc : JValue :=
  .obj [("warnings", .obj [("main", .obj [("*", .str "deprecated param")])])]

/-- The document of a login response `{"login":{"result":"Success"}}`. -/
def loginSuccessDoc : JValue :=
  .obj [("login", .obj [("result", .str "Success")])]

/-- A parse capability that decodes exactly the two fixture bodies
above and the login-success body, and fails on anything else. -/
def fixtureParse (b : String) : Option JValue :=
  if b = errBody then some badtokenDoc
  else if b = warnBody then some warnDoc
  else if b = "loginSuccessBody" then some loginSuccessDoc
  else none

theorem Params.get_set_self (p : Params) (k v : String) :
    (p.set k v).get k = v := by
  induction p with
  | nil => simp [Params.set, Params.get]
  | cons kv rest ih =>
      obtain ⟨k', v'⟩ := kv
      by_cases h : k' = k
      · subst h
        simp [Params.set, Params.get]
      · simpa [Params.set, Params.get, h] using ih

theorem Params.get_set_ne (p : Params) (k k' v : String) (h : k' ≠ k) :
    (p.set k v).get k' = p.get k' := by
  induction p with
  | nil => simp [Params.set, Params.get, Ne.symm h]
  | cons kv rest ih =>
      obtain ⟨k₀, v₀⟩ := kv
      by_cases h₀ : k₀ = k
      · subst h₀
        simp [Params.set, Params.get, Ne.symm h]
      · by_cases h₁ : k₀ = k'
        · subst h₁
          simp [Params.set, Params.get, h₀]
        · simpa [Params.set, Params.get, h₀, h₁] using ih

theorem Params.hasKey_set_self (p : Params) (k v : String) :
    (p.set k v).hasKey k = true := by
  induction p with
  | nil => simp [Params.set, Params.hasKey]
  | cons kv rest ih =>
      obtain ⟨k', v'⟩ := kv
      by_cases h : k' = k
      · subst h
        simp [Params.set, Params.hasKey]
      · simpa [Params.set, Params.hasKey, h] using ih

theorem Params.hasKey_set_ne (p : Params) (k k' v : String) (h : k' ≠ k) :
    (p.set k v).hasKey k' = p.hasKey k' := by
  induction p with
  | nil => simp [Params.set, Params.hasKey, Ne.symm h]
  | cons kv rest ih =>
      obtain ⟨k₀, v₀⟩ := kv
      by_cases h₀ : k₀ = k
      · subst h₀
        simp [Params.set, Params.hasKey, Ne.symm h]
      · by_cases h₁ : k₀ = k'
        · subst h₁
          simp [Params.set, Params.hasKey, h₀]
        · simpa [Params.set, Params.hasKey, h₀, h₁] using ih

/-- `augmentBase` leaves every key other than `format` and `utf8`
unchanged. -/
theorem augmentBase_get_ne (p : Params) (k : String)
    (h1 : k ≠ "format") (h2 : k ≠ "utf8") :
    (augmentBase p).get k = p.get k := by
  unfold augmentBase
  rw [Params.get_set_ne _ _ _ _ h2, Params.get_set_ne _ _ _ _ h1]

theorem augmentBase_hasKey_ne (p : Params) (k : String)
    (h1 : k ≠ "format") (h2 : k ≠ "utf8") :
    (augmentBase p).hasKey k = p.hasKey k := by
  unfold augmentBase
  rw [Params.hasKey_set_ne _ _ _ _ h2, Params.hasKey_set_ne _ _ _ _ h1]

/-- The maxlag step leaves every key other than `maxlag` unchanged. -/
theorem augmentMaxlag_get_ne (c : Client) (p : Params) (k : String)
    (h : k ≠ "maxlag") :
    (augmentMaxlag c p).get k = p.get k := by
  unfold augmentMaxlag
  split_ifs <;> simp [Params.get_set_ne _ _ _ _ h]

theorem augmentMaxlag_hasKey_ne (c : Client) (p : Params) (k : String)
    (h : k ≠ "maxlag") :
    (augmentMaxlag c p).hasKey k = p.hasKey k := by
  unfold augmentMaxlag
  split_ifs <;> simp [Params.hasKey_set_ne _ _ _ _ h]

/-- The value of `maxlag` after the maxlag step: filled in from the
configured timeout exactly when maxlag is on and the incoming value is
empty. -/
theorem augmentMaxlag_get_maxlag (c : Client) (p : Params) :
    (augmentMaxlag c p).get "maxlag" =
      if c.maxlag.On then
        (if p.get "maxlag" = "" then c.maxlag.Timeout else p.get "maxlag")
      else p.get "maxlag" := by
  unfold augmentMaxlag
  split_ifs <;> simp_all [Params.get_set_self]

/-- The assert step leaves every key other than `assert` unchanged. -/
theorem augmentAssert_get_ne (c : Client) (p : Params) (k : String)
    (h : k ≠ "assert") :
    (augmentAssert c p).get k = p.get k := by
  unfold augmentAssert
  obtain ⟨ml, a⟩ := c
  cases a <;> simp [AssertType.toNat, Params.get_set_ne _ _ _ _ h]

theorem augmentAssert_hasKey_ne (c : Client) (p : Params) (k : String)
    (h : k ≠ "assert") :
    (augmentAssert c p).hasKey k = p.hasKey k := by
  unfold augmentAssert
  obtain ⟨ml, a⟩ := c
  cases a <;> simp [AssertType.toNat, Params.hasKey_set_ne _ _ _ _ h]

/-- C4 (counterexample): with maxlag enabled and the configured timeout
`"5"`, a caller-supplied `maxlag` key whose value is the empty string
IS overwritten: the `maxlag` key is present in the caller's parameters,
yet the dispatched request carries `maxlag=5`, not the caller's value
(`Client.call` tests `p.Get("maxlag") == ""`, which cannot distinguish
an empty value from an absent key). -/
theorem maxlag_param_empty_overwritten_counterexample :
    Params.hasKey [("maxlag", "")] "maxlag" = true ∧
    (augment mlClient [("maxlag", "")]).get "maxlag" = "5" ∧
    (augment mlClient [("maxlag", "")]).get "maxlag" ≠
      Params.get [("maxlag", "")] "maxlag" := by
  refine ⟨by decide, by decide, by decide⟩

/-- C4 (amended): for every parameter set, when maxlag is enabled the
dispatched request carries `maxlag=<configured timeout>` exactly when
the caller-supplied `maxlag` value is empty or the key is absent; a
caller-supplied NON-EMPTY `maxlag` value is never overwritten and
reaches the dispatched request unchanged; with maxlag disabled the
caller's `maxlag` value always passes through unchanged. -/
theorem maxlag_param_augmentation (c : Client) (p : Params) :
    (augment c p).get "maxlag" =
      if c.maxlag.On then
        (if p.get "maxlag" = "" then c.maxlag.Timeout else p.get "maxlag")
      else p.get "maxlag" := by
  have ha : ("maxlag" : String) ≠ "assert" := by decide
  have hf : ("maxlag" : String) ≠ "format" := by decide
  have hu : ("maxlag" : String) ≠ "utf8" := by decide
  unfold augment
  rw [augmentAssert_get_ne _ _ _ ha, augmentMaxlag_get_maxlag,
    augmentBase_get_ne _ _ hf hu]

/-- C5: on every dispatched request the `assert` parameter equals
`user` when the assertion mode is `AssertUser` and `bot` when it is
`AssertBot`; when the mode is `AssertNone` no `assert` parameter is
added at all (both the presence of the key and its value are exactly
those of the caller's parameter set). -/
theorem assert_param_augmentation (c : Client) (p : Params) :
    ((augment c p).get "assert" =
      match c.assert with
      | .AssertUser => "user"
      | .AssertBot => "bot"
      | .AssertNone => p.get "assert") ∧
    ((augment c p).hasKey "assert" =
      match c.assert with
      | .AssertUser => true
      | .AssertBot => true
      | .AssertNone => p.hasKey "assert") := by
  have hm : ("assert" : String) ≠ "maxlag" := by decide
  have hf : ("assert" : String) ≠ "format" := by decide
  have hu : ("assert" : String) ≠ "utf8" := by decide
  obtain ⟨ml, a⟩ := c
  unfold augment augmentAssert
  cases a <;>
    simp [AssertType.toNat, Params.get_set_self, Params.hasKey_set_self,
      augmentMaxlag_get_ne _ _ _ hm, augmentMaxlag_hasKey_ne _ _ _ hm,
      augmentBase_get_ne _ _ hf hu, augmentBase_hasKey_ne _ _ hf hu]

/-- `strconv.Atoi` range behaviour at the int64 boundaries: the most
negative and most positive 64-bit values parse, one past either end is
the `ErrRange` error. -/
theorem atoi_int64_range :
    atoi "9223372036854775807" = some 9223372036854775807 ∧
    atoi "9223372036854775808" = none ∧
    atoi "-9223372036854775808" = some (-9223372036854775808) ∧
    atoi "-9223372036854775809" = none :=
  ⟨rfl, rfl, rfl, rfl⟩

/-- For any parameters, a response with the lag headers classifies as
the `maxLagError` signal carrying the body and wait 5. -/
theorem callf_snd_lag (c : Client) (p : Params) (b : String) :
    (callf c p (.ok lagHeaders b)).2 = .error (.maxlag b 5) := rfl

/-- For any parameters, a response with no headers classifies as the
success body. -/
theorem callf_snd_plain (c : Client) (p : Params) (b : String) :
    (callf c p (.ok [] b)).2 = .ok b := rfl

/-- With no budget left, the loop exits with `ErrAPIBusy` without a
further attempt. -/
theorem callLoop_zero (c : Client) (p : Params) (rs : Nat → HttpResult)
    (tries : Nat) : callLoop c p rs tries 0 = ⟨0, [], .error .busy⟩ := rfl

/-- One loop iteration whose attempt signals maxlag: count the attempt,
sleep the signalled wait only when iterations remain, and continue. -/
theorem callLoop_maxlag_step (c : Client) (p : Params) (rs : Nat → HttpResult)
    (tries rem : Nat) (b : String) (w : Int)
    (h : (callf c p (rs tries)).2 = .error (.maxlag b w)) :
    callLoop c p rs tries (rem + 1) =
      ⟨(callLoop c p rs (tries + 1) rem).attempts + 1,
        (if rem > 0 then [w] else []) ++ (callLoop c p rs (tries + 1) rem).sleeps,
        (callLoop c p rs (tries + 1) rem).result⟩ := by
  rw [callLoop, h]

/-- One loop iteration whose attempt does not signal maxlag returns
that outcome immediately: one attempt, no sleep, no further retries. -/
theorem callLoop_other_step (c : Client) (p : Params) (rs : Nat → HttpResult)
    (tries rem : Nat)
    (h : isMaxlagRes (callf c p (rs tries)).2 = false) :
    callLoop c p rs tries (rem + 1) = ⟨1, [], (callf c p (rs tries)).2⟩ := by
  rw [callLoop]
  cases hres : (callf c p (rs tries)).2 with
  | ok v => rfl
  | error e => cases e <;> simp_all [isMaxlagRes]

/-- C2: with maxlag enabled and the default budget of 3, when every
dispatch attempt comes back with the lag signal and `Retry-After: 5`,
the call makes exactly 3 dispatch attempts, sleeps exactly twice for 5
seconds (never after the final attempt), and fails with `ErrAPIBusy` —
a constructor distinct from `Err.api` and `Err.transport`. -/
theorem maxlag_budget_exhausted_three_attempts (rs : Nat → HttpResult)
    (bodies : Nat → String) (p : Params)
    (h : ∀ i, rs i = .ok lagHeaders (bodies i)) :
    call mlClient p false rs = ⟨3, [5, 5], .error .busy⟩ := by
  have hstart : call mlClient p false rs = callLoop mlClient p rs 0 3 := rfl
  have hc : ∀ i, (callf mlClient p (rs i)).2 = .error (.maxlag (bodies i) 5) := by
    intro i
    rw [h i, callf_snd_lag]
  rw [hstart, callLoop_maxlag_step _ _ _ 0 2 _ 5 (hc 0),
    callLoop_maxlag_step _ _ _ 1 1 _ 5 (hc 1),
    callLoop_maxlag_step _ _ _ 2 0 _ 5 (hc 2), callLoop_zero]
  rfl

/-- Closed instance of C2: every attempt answers with the lag headers;
the trace is 3 attempts, sleeps `[5, 5]`, result `ErrAPIBusy`. -/
theorem maxlag_budget_exhausted_three_attempts_witness :
    call mlClient [] false (fun _ => .ok lagHeaders "lagged") =
      ⟨3, [5, 5], .error .busy⟩ :=
  maxlag_budget_exhausted_three_attempts (fun _ => .ok lagHeaders "lagged")
    (fun _ => "lagged") [] (fun _ => rfl)

/-- C3: with maxlag enabled and budget 3, a lag signal on the first
attempt followed by a clean success body on the second yields that body
with exactly 2 attempts and exactly one sleep of 5 seconds; moreover at
any point in the loop with budget left, a non-maxlag outcome (success
or any other error) is returned immediately after that single attempt,
with no further retries and no sleep. -/
theorem maxlag_recovery_second_attempt (rs rs2 : Nat → HttpResult)
    (b bs : String) (p p2 : Params) (tries rem : Nat)
    (h0 : rs 0 = .ok lagHeaders b) (h1 : rs 1 = .ok [] bs)
    (h2 : isMaxlagRes (callf mlClient p2 (rs2 tries)).2 = false) :
    call mlClient p false rs = ⟨2, [5], .ok bs⟩ ∧
    callLoop mlClient p2 rs2 tries (rem + 1) =
      ⟨1, [], (callf mlClient p2 (rs2 tries)).2⟩ := by
  constructor
  · have hstart : call mlClient p false rs = callLoop mlClient p rs 0 3 := rfl
    have hc0 : (callf mlClient p (rs 0)).2 = .error (.maxlag b 5) := by
      rw [h0, callf_snd_lag]
    have hc1 : isMaxlagRes (callf mlClient p (rs 1)).2 = false := by
      rw [h1, callf_snd_plain]
      rfl
    rw [hstart, callLoop_maxlag_step _ _ _ 0 2 _ 5 hc0,
      callLoop_other_step _ _ _ 1 1 hc1, h1, callf_snd_plain]
    rfl
  · exact callLoop_other_step _ _ _ _ _ h2

/-- Closed instance of C3: lag on attempt 0, success body on attempt 1;
the trace is 2 attempts, sleeps `[5]`, result the success body; and a
transport failure in the middle of the loop returns immediately. -/
theorem maxlag_recovery_second_attempt_witness :
    call mlClient []
      false (fun i => if i = 0 then .ok lagHeaders "lag" else .ok [] "payload") =
      ⟨2, [5], .ok "payload"⟩ ∧
    callLoop mlClient [] (fun _ => .fail "refused") 1 (1 + 1) =
      ⟨1, [], (callf mlClient [] (.fail "refused")).2⟩ :=
  maxlag_recovery_second_attempt
    (fun i => if i = 0 then .ok lagHeaders "lag" else .ok [] "payload")
    (fun _ => .fail "refused") "lag" "payload" [] [] 1 1 rfl rfl rfl

/-- C6: with maxlag disabled, the call delegates to the dispatcher
exactly once: one attempt, no sleep, and whatever `callf` produced —
including a maxlag signal, possible when the caller supplied a
non-empty `maxlag` parameter manually — is returned unchanged as the
outcome. -/
theorem call_maxlag_disabled_single_dispatch (c : Client) (p : Params)
    (post : Bool) (rs : Nat → HttpResult) (h : c.maxlag.On = false) :
    call c p post rs = ⟨1, [], (callf c p (rs 0)).2⟩ := by
  simp [call, h]

/-- Closed instance of C6: maxlag disabled and the single response
carrying the lag signal; the signal is surfaced with one attempt and
no sleep. -/
theorem call_maxlag_disabled_single_dispatch_witness :
    plainClient.maxlag.On = false ∧
    call plainClient [] false (fun _ => .ok lagHeaders "lagged") =
      ⟨1, [], .error (.maxlag "lagged" 5)⟩ :=
  ⟨rfl, call_maxlag_disabled_single_dispatch plainClient [] false
    (fun _ => .ok lagHeaders "lagged") rfl⟩

/-- C10: with maxlag enabled and a retry budget of zero or less, the
loop body never runs: no dispatch attempt is made, no sleep occurs, and
the call fails immediately with `ErrAPIBusy`. -/
theorem maxlag_zero_budget_no_dispatch (c : Client) (p : Params)
    (post : Bool) (rs : Nat → HttpResult)
    (hOn : c.maxlag.On = true) (hr : c.maxlag.Retries ≤ 0) :
    call c p post rs = ⟨0, [], .error .busy⟩ := by
  have h0 : c.maxlag.Retries.toNat = 0 := Int.toNat_of_nonpos hr
  simp [call, hOn, h0, callLoop]

/-- Closed instance of C10: maxlag on with `Retries = 0`; the call
returns `ErrAPIBusy` with zero attempts and zero sleeps. -/
theorem maxlag_zero_budget_no_dispatch_witness :
    call ⟨⟨true, "5", 0⟩, .AssertNone⟩ [] false (fun _ => .fail "never sent") =
      ⟨0, [], .error .busy⟩ :=
  maxlag_zero_budget_no_dispatch ⟨⟨true, "5", 0⟩, .AssertNone⟩ [] false
    (fun _ => .fail "never sent") rfl (by decide)

/-- C1 (counterexample): on a body that parses to the error envelope
`{"error":{"code":"badtoken","info":"Invalid token"}}`, `callJSON`
returns the ApplicationError with code `badtoken` and info
`Invalid token` — but TOGETHER WITH the parsed document, not with a nil
document: core.go line 269 is `return js, extractAPIErrors(js)`. -/
theorem callJSON_error_envelope_counterexample :
    callJSON fixtureParse plainClient [] false (fun _ => .ok [] errBody) =
      (some badtokenDoc, some (.api "badtoken" "Invalid token")) ∧
    (callJSON fixtureParse plainClient [] false (fun _ => .ok [] errBody)).1 ≠
      none := by
  refine ⟨rfl, ?_⟩
  show some badtokenDoc ≠ none
  simp

/-- C1 (amended): whenever the call succeeds with a body that parses to
a document which the Error Classifier rejects (a top-level `error` or
non-empty `warnings` envelope), `callJSON` — and thus `Get` and `Post` —
returns that ApplicationError together with THE PARSED DOCUMENT; the
document accompanies the error rather than being replaced by nil. -/
theorem callJSON_error_envelope_returns_doc (parse : String → Option JValue)
    (c : Client) (p : Params) (post : Bool) (rs : Nat → HttpResult)
    (body : String) (js : JValue) (e : Err)
    (h1 : (call c p post rs).result = .ok body)
    (h2 : parse body = some js)
    (h3 : extractAPIErrors js = some e) :
    callJSON parse c p post rs = (some js, some e) := by
  simp only [callJSON, h1, h2, h3]

/-- Closed instance of the amended C1, on the warnings fixture: the
call succeeds, the body parses, the classifier reports the non-empty
warnings envelope, and `callJSON` returns the document with the error. -/
theorem callJSON_error_envelope_returns_doc_witness :
    (call plainClient [] false (fun _ => .ok [] warnBody)).result =
      .ok warnBody ∧
    fixtureParse warnBody = some warnDoc ∧
    extractAPIErrors warnDoc =
      some (.warnings (.obj [("main", .obj [("*", .str "deprecated param")])])) ∧
    callJSON fixtureParse plainClient [] false (fun _ => .ok [] warnBody) =
      (some warnDoc,
        some (.warnings (.obj [("main", .obj [("*", .str "deprecated param")])]))) :=
  ⟨rfl, rfl, rfl,
    callJSON_error_envelope_returns_doc fixtureParse plainClient [] false
      (fun _ => .ok [] warnBody) warnBody warnDoc _ rfl rfl rfl⟩

/-- C7: given a successful token fetch and a login POST whose JSON
decode produced a document with no error, `Login`'s outcome is exactly
the `login.result` state machine: the literal string `"Success"` yields
a nil error and promotes the assertion mode to `AssertUser` only when
it was `AssertNone` (an `AssertBot` or `AssertUser` mode is left
unchanged); any other string yields `APIError{Code: result}` with the
mode unchanged; a field that cannot be read as a string yields the
invalid-API-response error with the mode unchanged. -/
theorem login_result_state_machine (parse : String → Option JValue)
    (c : Client) (u pw tok : String) (rs : Nat → HttpResult) (resp : JValue)
    (hpost : callJSON parse c
        [("action", "login"), ("lgname", u), ("lgpassword", pw), ("lgtoken", tok)]
        true rs = (some resp, none)) :
    Login parse c u pw (.ok tok) rs =
      match getString resp ["login", "result"] with
      | none => (c, some .invalidLoginResult)
      | some lgResult =>
          if lgResult = "Success" then
            (if c.assert = .AssertNone then ({ c with assert := .AssertUser }, none)
             else (c, none))
          else (c, some (.api lgResult "")) := by
  simp only [Login, hpost]
  cases hs : getString resp ["login", "result"] with
  | none => rfl
  | some s =>
      by_cases hsuc : s = "Success" <;> simp [hsuc]

/-- Closed instance of C7: a login response `{"login":{"result":"Success"}}`
with the mode at `AssertNone` yields a nil error and promotes the mode
to `AssertUser`. -/
theorem login_result_state_machine_witness :
    callJSON (fun _ => some loginSuccessDoc) plainClient
      [("action", "login"), ("lgname", "u"), ("lgpassword", "pw"), ("lgtoken", "tok")]
      true (fun _ => .ok [] "resp") = (some loginSuccessDoc, none) ∧
    Login (fun _ => some loginSuccessDoc) plainClient "u" "pw" (.ok "tok")
      (fun _ => .ok [] "resp") =
      ({ plainClient with assert := .AssertUser }, none) :=
  ⟨rfl,
    (login_result_state_machine (fun _ => some loginSuccessDoc) plainClient
      "u" "pw" "tok" (fun _ => .ok [] "resp") loginSuccessDoc rfl).trans rfl⟩

/-- C8: `Logout` always resets the assertion mode to `AssertNone`: for
every prior mode and every behaviour of the `action=logout` GET
(success, application error or transport failure), the resulting client
is `{ c with assert := AssertNone }`, the request's outcome is
discarded (the result does not depend on it), and no error is surfaced
(`Logout` returns only the client). -/
theorem logout_resets_assert (parse parse' : String → Option JValue)
    (c : Client) (rs rs' : Nat → HttpResult) :
    Logout parse c rs = { c with assert := .AssertNone } ∧
    (Logout parse c rs).assert = .AssertNone ∧
    Logout parse c rs = Logout parse' c rs' :=
  ⟨rfl, rfl, rfl⟩

/-- C9 (counterexample): a response in which the `X-Database-Lag`
header is PRESENT but carries an empty value is NOT classified as a
maxlag signal — the body is returned as the success stream — because
the code tests `resp.Header.Get("X-Database-Lag") != ""`, and `Get`
cannot distinguish an empty-valued header from an absent one. -/
theorem lag_header_empty_value_counterexample :
    headerPresent [("X-Database-Lag", "")] "X-Database-Lag" = true ∧
    (callf plainClient [] (.ok [("X-Database-Lag", "")] "body")).2 = .ok "body" ∧
    isMaxlagRes (callf plainClient [] (.ok [("X-Database-Lag", "")] "body")).2 =
      false :=
  ⟨rfl, rfl, rfl⟩

/-- C9 (amended): for every transport response, the dispatcher returns
the maxlag signal exactly when the `X-Database-Lag` header carries a
NON-EMPTY value; in that case `Retry-After` is parsed as a base-10
integer (the call fails with the `Atoi` parse error when it is not
one) and the full body is drained into the signal's raw-body field;
otherwise the body is returned to the caller. -/
theorem dispatch_maxlag_classification (c : Client) (p : Params)
    (hs : List (String × String)) (b : String) :
    ((callf c p (.ok hs b)).2 = .ok b ↔ headerGet hs "X-Database-Lag" = "") ∧
    (callf c p (.ok hs b)).2 =
      (if headerGet hs "X-Database-Lag" = "" then .ok b
       else
         match atoi (headerGet hs "Retry-After") with
         | none => .error (.atoiFail (headerGet hs "Retry-After"))
         | some n => .error (.maxlag b n)) := by
  unfold callf
  by_cases hl : headerGet hs "X-Database-Lag" = ""
  · simp [hl]
  · cases ha : atoi (headerGet hs "Retry-After") <;> simp [hl, ha]

end Mwclient
